import Mathlib

/-!
Verification of the MCSR Elo Viewer browser extension
(repository `gettingtwitch_ids`).

The development shallowly embeds the data-synchronisation / lookup cache of
the background script (`src/mcsr_app_viewer/background.js`, the packaged
variant of the background component; `src/background.js` is an earlier
revision of the same file) and the DOM-annotation engine of the content
script (`src/unnamed/part_002`, the "Hide N/A" variant, whose
`processNewChatMessages` / `addEloDisplay` are the cited sources; the rank
table `getRankInfo` is byte-identical across all three content-script
variants).

JavaScript strings are modelled as Lean `String`.  The string primitives
used by the code (`trim`, `split` on a one-character separator,
`toLowerCase`, `parseInt(·, 10)`, `Array.prototype.indexOf`) are defined
below directly over `List Char` so that every definition reduces inside the
kernel.  JS numbers are modelled as `Int`; the CSV ratings are small
integers, far below 2^53, so the float representation of JS numbers is
exact on every value that occurs.  JS objects used as string-keyed maps are
modelled as association lists with the JS assignment semantics
(update-in-place for an existing key, append for a new one).
-/

/-- Whitespace for the purposes of JS `String.prototype.trim`
    (the code only ever meets ASCII whitespace). -/
def isJsWhitespace (c : Char) : Bool :=
  c = ' ' || c = '\t' || c = '\n' || c = '\r' || c = Char.ofNat 11 || c = Char.ofNat 12

/-- JS `s.trim()`: drop whitespace from both ends. -/
def jsTrim (s : String) : String :=
  String.mk (((s.data.dropWhile isJsWhitespace).reverse.dropWhile isJsWhitespace).reverse)

/-- Split a character list at every occurrence of `sep` (the separator is
    consumed; empty segments are kept, as JS `split` does). -/
def splitOnChar (sep : Char) : List Char → List (List Char)
  | [] => [[]]
  | x :: xs =>
    let r := splitOnChar sep xs
    if x = sep then [] :: r
    else
      match r with
      | h :: t => (x :: h) :: t
      | [] => [[x]]

/-- JS `s.split(sep)` for a one-character separator (the code only splits on
    a comma and on a newline). -/
def jsSplit (s : String) (sep : Char) : List String :=
  (splitOnChar sep s.data).map String.mk

/-- JS `s.toLowerCase()` (ASCII; the header names and usernames met by the
    code are ASCII). -/
def jsToLower (s : String) : String :=
  String.mk (s.data.map Char.toLower)

/-- Digit run to a natural number. -/
def digitsToNat (ds : List Char) : Nat :=
  ds.foldl (fun a c => a * 10 + (c.toNat - 48)) 0

/-- JS `parseInt(s, 10)`: skip leading whitespace, read an optional sign and
    then the longest prefix of decimal digits; `none` models `NaN` (no
    digits at all).  Trailing garbage is ignored, exactly as in JS. -/
def jsParseInt (s : String) : Option Int :=
  let cs := (jsTrim s).data
  match cs with
  | '-' :: rest =>
    let ds := rest.takeWhile Char.isDigit
    if ds.isEmpty then none else some (-(digitsToNat ds : Int))
  | '+' :: rest =>
    let ds := rest.takeWhile Char.isDigit
    if ds.isEmpty then none else some ((digitsToNat ds : Int))
  | _ =>
    let ds := cs.takeWhile Char.isDigit
    if ds.isEmpty then none else some ((digitsToNat ds : Int))

/-- JS `Array.prototype.indexOf`: index of the first occurrence, `none`
    models the JS result `-1`. -/
def jsIndexOf : List String → String → Option Nat
  | [], _ => none
  | x :: xs, a => if x = a then some 0 else (jsIndexOf xs a).map (· + 1)

/-- A value of the in-memory map `twitchUserDataMap`:
    `{ uuid, nickname, eloRate }` built by `parseCsvData`
    (src/mcsr_app_viewer/background.js lines 57-61). -/
structure UserRecord where
  uuid : String
  nickname : Option String
  eloRate : Option Int
deriving DecidableEq

/-- A JS object used as a map from lowercased twitch name to `UserRecord`,
    as an association list in insertion order. -/
abbrev UserDataMap := List (String × UserRecord)

/-- JS property assignment `m[k] = v`: an existing key is updated in place,
    a new key is appended. -/
def mapInsert (m : UserDataMap) (k : String) (v : UserRecord) : UserDataMap :=
  if m.any (fun p => p.1 = k) then
    m.map (fun p => if p.1 = k then (k, v) else p)
  else m ++ [(k, v)]

/-- JS property read `m[k]` (`none` models `undefined`). -/
def mapLookup (m : UserDataMap) (k : String) : Option UserRecord :=
  (m.find? (fun p => p.1 = k)).map Prod.snd

/-- The four header-column indices located by `parseCsvData`
    (src/mcsr_app_viewer/background.js lines 29-32). -/
structure HeaderIdx where
  twitchNameIndex : Nat
  uuidIndex : Nat
  nicknameIndex : Nat
  eloRateIndex : Nat
deriving DecidableEq

/-- The trimmed, lowercased header names of a header line
    (`lines[0].split(',').map(h => h.trim())` followed by
    `headers.map(h => h.toLowerCase())`). -/
def lowerHeaderNames (headerLine : String) : List String :=
  (((jsSplit headerLine ',').map jsTrim).map jsToLower)

/-- Header-row analysis of `parseCsvData`
    (src/mcsr_app_viewer/background.js lines 26-37): the four required
    column indices are looked up in the lowercased header names; `none`
    models the `return null` on a missing column.  Also returns the header
    field count `headers.length`. -/
def findHeaderIndices (headerLine : String) : Option (HeaderIdx × Nat) :=
  let headers := (jsSplit headerLine ',').map jsTrim
  let lowerCaseHeaders := headers.map jsToLower
  match jsIndexOf lowerCaseHeaders "twitch_name", jsIndexOf lowerCaseHeaders "uuid",
        jsIndexOf lowerCaseHeaders "nickname", jsIndexOf lowerCaseHeaders "elorate" with
  | some twitchNameIndex, some uuidIndex, some nicknameIndex, some eloRateIndex =>
    some (⟨twitchNameIndex, uuidIndex, nicknameIndex, eloRateIndex⟩, headers.length)
  | _, _, _, _ => none

/-- The per-row field list `lines[i].split(',').map(v => v.trim())`
    (src/mcsr_app_viewer/background.js line 41). -/
def rowValues (line : String) : List String :=
  (jsSplit line ',').map jsTrim

/-- The loop body of `parseCsvData` for one data row
    (src/mcsr_app_viewer/background.js lines 39-66), split into the entry
    it produces: `none` when the row is skipped (field-count mismatch, or
    empty twitch name / uuid after trimming), otherwise the key
    (lowercased twitch name) and the record.  The rating becomes a number
    exactly when the field is non-empty and `parseInt(·, 10)` is not `NaN`;
    an empty nickname becomes `null`. -/
def rowEntry (h : HeaderIdx) (cnt : Nat) (line : String) :
    Option (String × UserRecord) :=
  let values := rowValues line
  if values.length = cnt then
    let twitchName := values.getD h.twitchNameIndex ""
    let uuid := values.getD h.uuidIndex ""
    let nickname := values.getD h.nicknameIndex ""
    let eloRateStr := values.getD h.eloRateIndex ""
    if twitchName ≠ "" ∧ uuid ≠ "" then
      some (jsToLower twitchName,
        { uuid := uuid
          nickname := if nickname = "" then none else some nickname
          eloRate := if eloRateStr ≠ "" then jsParseInt eloRateStr else none })
    else none
  else none

/-- One iteration of the row loop of `parseCsvData`: `tempMap[key] = record`
    when the row is admitted, no change otherwise. -/
def processRow (h : HeaderIdx) (cnt : Nat) (m : UserDataMap) (line : String) :
    UserDataMap :=
  match rowEntry h cnt line with
  | some kv => mapInsert m kv.1 kv.2
  | none => m

/-- The function `parseCsvData` (src/mcsr_app_viewer/background.js lines 17-73):
    trim the text, split into lines, require at least a header and one data
    row, locate the four required columns case-insensitively, then fold the
    row loop over the data rows starting from the empty map.  `none` models
    every `return null` (too few lines, missing column). -/
def parseCsvData (csvText : String) : Option UserDataMap :=
  let lines := jsSplit (jsTrim csvText) '\n'
  if lines.length < 2 then none
  else
    match lines with
    | [] => none
    | headerLine :: dataLines =>
      match findHeaderIndices headerLine with
      | none => none
      | some hc => some (dataLines.foldl (processRow hc.1 hc.2) [])

/-!
Background script state.  The background component is single-threaded and
event driven; `fetchAndStoreCsvData` suspends only at its `await`s, so one
whole invocation of it is modelled as a function of the pre-state and of
the outcome of the network fetch, except that the three commit statements
of the successful branch are additionally broken into the explicit steps
`commitStep1` / `commitStep2` / `commitStep3` so that the intermediate
states between the `await`s are visible.
-/

/-- The mutable state of the background script: the two globals
    `twitchUserDataMap`, `isDataLoaded`, `isFetching`
    (src/mcsr_app_viewer/background.js lines 11-13) and the durable value
    stored under `STORAGE_KEY` in `chrome.storage.local` (`none` models a
    missing key). -/
structure BgState where
  twitchUserDataMap : UserDataMap
  isDataLoaded : Bool
  isFetching : Bool
  storage : Option UserDataMap
deriving DecidableEq

/-- Outcome of `fetch(GITHUB_CSV_URL, ...)`: a transport failure or a
    non-ok status (the `throw` path), or the response text. -/
inductive FetchOutcome where
  | transportError
  | ok (csvText : String)

/-- The function `loadDataFromStorage` (src/mcsr_app_viewer/background.js lines
    117-133): adopt the stored snapshot when it exists and is non-empty,
    otherwise mark the cache unloaded (the in-memory map itself is left
    alone on that path). -/
def loadDataFromStorage (s : BgState) : BgState :=
  match s.storage with
  | some stored =>
    if 0 < stored.length then
      { s with twitchUserDataMap := stored, isDataLoaded := true }
    else { s with isDataLoaded := false }
  | none => { s with isDataLoaded := false }

/-- Commit step 1 of the successful parse:
    `await chrome.storage.local.set({ [STORAGE_KEY]: parsedMap })`. -/
def commitStep1 (s : BgState) (parsedMap : UserDataMap) : BgState :=
  { s with storage := some parsedMap }

/-- Commit step 2: `twitchUserDataMap = parsedMap`. -/
def commitStep2 (s : BgState) (parsedMap : UserDataMap) : BgState :=
  { s with twitchUserDataMap := parsedMap }

/-- Commit step 3: `isDataLoaded = true`. -/
def commitStep3 (s : BgState) : BgState :=
  { s with isDataLoaded := true }

/-- The four states passed through by the commit sequence of
    `fetchAndStoreCsvData` (src/mcsr_app_viewer/background.js lines
    96-101), in program order. -/
def commitTrace (s : BgState) (parsedMap : UserDataMap) : List BgState :=
  [s,
   commitStep1 s parsedMap,
   commitStep2 (commitStep1 s parsedMap) parsedMap,
   commitStep3 (commitStep2 (commitStep1 s parsedMap) parsedMap)]

/-- The `else` / `catch` fallback of `fetchAndStoreCsvData`:
    `if (!isDataLoaded) await loadDataFromStorage()`. -/
def fetchFallback (s : BgState) : BgState :=
  if s.isDataLoaded then s else loadDataFromStorage s

/-- The `try` body of `fetchAndStoreCsvData`
    (src/mcsr_app_viewer/background.js lines 88-111), run with the
    `isFetching` flag raised: a transport error (or non-ok status), a
    failed parse or an empty parse take the fallback and yield `false`; a
    non-empty parse runs the three commit steps in program order and
    yields `true`.  (The guard against the unreplaced placeholder URL is
    statically false in the shipped file and is omitted.) -/
def fetchBody (s1 : BgState) (outcome : FetchOutcome) : BgState × Bool :=
  match outcome with
  | FetchOutcome.transportError => (fetchFallback s1, false)
  | FetchOutcome.ok csvText =>
    match parseCsvData csvText with
    | some parsedMap =>
      if 0 < parsedMap.length then
        (commitStep3 (commitStep2 (commitStep1 s1 parsedMap) parsedMap), true)
      else (fetchFallback s1, false)
    | none => (fetchFallback s1, false)

/-- The function `fetchAndStoreCsvData` itself: the in-flight guard, the raising of the
    flag, the body above, and the `finally` clause lowering the flag. -/
def fetchAndStoreCsvData (s : BgState) (outcome : FetchOutcome) : BgState × Bool :=
  if s.isFetching then (s, false)
  else
    let r := fetchBody { s with isFetching := true } outcome
    ({ r.1 with isFetching := false }, r.2)

/-- The response object sent on the `getElo` channel
    (src/mcsr_app_viewer/background.js lines 202-225). -/
structure LookupResult where
  elo : Option Int
  nickname : Option String
  uuid : Option String
  status : String
deriving DecidableEq

/-- The function `handleEloRequest` (src/mcsr_app_viewer/background.js lines 202-225).
    The argument is `Option String` because the caller may pass no
    username (`username?.toLowerCase()` guards against `null` /
    `undefined`); `!lowerCaseUsername` is also true for the empty
    string. -/
def handleEloRequest (s : BgState) (username : Option String) : LookupResult :=
  if s.isDataLoaded = false then
    { elo := none, nickname := none, uuid := none, status := "data_not_loaded" }
  else
    match username.map jsToLower with
    | none =>
      { elo := none, nickname := none, uuid := none, status := "invalid_username" }
    | some lowerCaseUsername =>
      if lowerCaseUsername = "" then
        { elo := none, nickname := none, uuid := none, status := "invalid_username" }
      else
        match mapLookup s.twitchUserDataMap lowerCaseUsername with
        | some userData =>
          { elo := userData.eloRate, nickname := userData.nickname,
            uuid := some userData.uuid, status := "storage_hit" }
        | none =>
          { elo := none, nickname := none, uuid := none, status := "not_found_in_map" }

/-- The `getElo` branch of the `chrome.runtime.onMessage` listener
    (src/mcsr_app_viewer/background.js lines 173-184): when the cache is
    not yet loaded the handler first awaits `loadDataFromStorage()` and
    answers from the resulting state; otherwise it answers synchronously. -/
def handleGetEloMessage (s : BgState) (username : Option String) :
    BgState × LookupResult :=
  if s.isDataLoaded = false then
    let s1 := loadDataFromStorage s
    (s1, handleEloRequest s1 username)
  else (s, handleEloRequest s username)

/-- The response object sent on the `forceCsvUpdate` channel. -/
structure UpdateResponse where
  success : Bool
  message : Option String
deriving DecidableEq

/-- The `forceCsvUpdate` branch of the `chrome.runtime.onMessage` listener
    (src/mcsr_app_viewer/background.js lines 185-195): a request arriving
    while a fetch is in flight is answered at once with
    `{ success: false, message: "Fetch already in progress." }` and
    nothing else happens; otherwise the fetch runs and its boolean result
    is reported. -/
def handleForceUpdate (s : BgState) (outcome : FetchOutcome) :
    BgState × UpdateResponse :=
  if s.isFetching then
    (s, { success := false, message := some "Fetch already in progress." })
  else
    let r := fetchAndStoreCsvData s outcome
    (r.1, { success := r.2, message := none })

/-- The record returned by `getRankInfo`. -/
structure RankInfo where
  rank : String
  division : Option Nat
  bgColor : String
  textColor : String
deriving DecidableEq

/-- The function `getRankInfo` (identical in src/mcsr_app_viewer/content.js lines 14-56,
    src/unnamed/part_001 lines 13-33 and src/unnamed/part_002 lines 13-55).
    `none` models a `null` rating; the JS `typeof elo !== 'number'` guard
    has no counterpart because the embedding is typed. -/
def getRankInfo (elo : Option Int) : RankInfo :=
  match elo with
  | none => { rank := "Unrated", division := none, bgColor := "#AAAAAA", textColor := "#000000" }
  | some e =>
    if 2000 ≤ e then
      { rank := "Netherite", division := none, bgColor := "#602A2A", textColor := "#FFFFFF" }
    else if 1800 ≤ e then
      { rank := "Diamond", division := some 3, bgColor := "#4AEED8", textColor := "#000000" }
    else if 1650 ≤ e then
      { rank := "Diamond", division := some 2, bgColor := "#4AEED8", textColor := "#000000" }
    else if 1500 ≤ e then
      { rank := "Diamond", division := some 1, bgColor := "#4AEED8", textColor := "#000000" }
    else if 1400 ≤ e then
      { rank := "Emerald", division := some 3, bgColor := "#00B837", textColor := "#FFFFFF" }
    else if 1300 ≤ e then
      { rank := "Emerald", division := some 2, bgColor := "#00B837", textColor := "#FFFFFF" }
    else if 1200 ≤ e then
      { rank := "Emerald", division := some 1, bgColor := "#00B837", textColor := "#FFFFFF" }
    else if 1100 ≤ e then
      { rank := "Gold", division := some 3, bgColor := "#F9A602", textColor := "#000000" }
    else if 1000 ≤ e then
      { rank := "Gold", division := some 2, bgColor := "#F9A602", textColor := "#000000" }
    else if 900 ≤ e then
      { rank := "Gold", division := some 1, bgColor := "#F9A602", textColor := "#000000" }
    else if 800 ≤ e then
      { rank := "Iron", division := some 3, bgColor := "#E0E0E0", textColor := "#000000" }
    else if 700 ≤ e then
      { rank := "Iron", division := some 2, bgColor := "#E0E0E0", textColor := "#000000" }
    else if 600 ≤ e then
      { rank := "Iron", division := some 1, bgColor := "#E0E0E0", textColor := "#000000" }
    else if 500 ≤ e then
      { rank := "Coal", division := some 3, bgColor := "#555555", textColor := "#FFFFFF" }
    else if 400 ≤ e then
      { rank := "Coal", division := some 2, bgColor := "#555555", textColor := "#FFFFFF" }
    else
      { rank := "Coal", division := some 1, bgColor := "#555555", textColor := "#FFFFFF" }

/-!
Chat-observer state.  Only the state a username DOM element carries is
relevant to the claims: its class list (the two marker classes
`mcsr-elo-processing` / `mcsr-elo-processed` are the only classes the code
ever adds, removes or queries), the number of badge elements inserted
after it, whether it already has a badge descendant (the
`querySelector('.mcsr-elo-badge')` guard), and its trimmed text.  The badge
construction itself (styles, tooltip, click and hover listeners) touches
none of this state and is not modelled.  Chat elements live in the
observed container, so `parentNode` exists and insertion succeeds.
-/

/-- The observable state of one username DOM element. -/
structure ChatElem where
  classes : List String
  siblingBadges : Nat
  hasBadgeDescendant : Bool
  text : String
deriving DecidableEq

/-- The DOM operation `classList.add`: a set, so adding a present class changes nothing. -/
def addClass (el : ChatElem) (c : String) : ChatElem :=
  if c ∈ el.classes then el else { el with classes := el.classes ++ [c] }

/-- The DOM operation `classList.remove`. -/
def removeClass (el : ChatElem) (c : String) : ChatElem :=
  { el with classes := el.classes.filter (fun x => x ≠ c) }

/-- The function `addEloDisplay` (src/unnamed/part_002 lines 59-134): return at once on
    a `null` rating; return at once on an element already marked
    `mcsr-elo-processed`; otherwise set the mark, and insert one badge
    after the element unless it already has a badge descendant. -/
def addEloDisplay (el : ChatElem) (eloData : LookupResult) : ChatElem :=
  match eloData.elo with
  | none => el
  | some _ =>
    if "mcsr-elo-processed" ∈ el.classes then el
    else
      let el1 := addClass el "mcsr-elo-processed"
      if el1.hasBadgeDescendant then el1
      else { el1 with siblingBadges := el1.siblingBadges + 1 }

/-- The discovery step of `processNewChatMessages` for one username element
    (src/unnamed/part_002 lines 150-156): an element carrying neither
    marker whose trimmed text is non-empty is marked
    `mcsr-elo-processing` (and a lookup request is issued for it). -/
def markProcessing (el : ChatElem) : ChatElem :=
  if "mcsr-elo-processed" ∉ el.classes ∧ "mcsr-elo-processing" ∉ el.classes then
    if jsTrim el.text ≠ "" then addClass el "mcsr-elo-processing" else el
  else el

/-- What the `sendMessage` callback observes: a channel error
    (`chrome.runtime.lastError`), a missing response, or a response. -/
inductive CompletionInput where
  | channelError
  | noResponse
  | response (r : LookupResult)

/-- The `sendMessage` callback of `processNewChatMessages`
    (src/unnamed/part_002 lines 156-181): on a channel error, a missing
    response or a failure status nothing is rendered and the
    `mcsr-elo-processing` marker is removed; on a non-failure status
    `addEloDisplay` runs, and the processing marker is removed only when
    the element did not end up marked `mcsr-elo-processed`. -/
def handleLookupCompletion (el : ChatElem) (inp : CompletionInput) : ChatElem :=
  match inp with
  | CompletionInput.channelError => removeClass el "mcsr-elo-processing"
  | CompletionInput.noResponse => removeClass el "mcsr-elo-processing"
  | CompletionInput.response r =>
    if r.status ≠ "not_found_in_local_data" ∧ r.status ≠ "data_not_loaded" ∧
        r.status ≠ "invalid_username" then
      let el1 := addEloDisplay el r
      if "mcsr-elo-processed" ∈ el1.classes then el1
      else removeClass el1 "mcsr-elo-processing"
    else removeClass el "mcsr-elo-processing"

/-- One event affecting a username element: the element is seen by a scan
    of added nodes, or one of its lookup requests completes. -/
inductive ObserverEvent where
  | rescan
  | completion (inp : CompletionInput)

/-- Apply one observer event to one element. -/
def applyObserverEvent (el : ChatElem) (ev : ObserverEvent) : ChatElem :=
  match ev with
  | ObserverEvent.rescan => markProcessing el
  | ObserverEvent.completion inp => handleLookupCompletion el inp

/-- The element states reachable by the observer's processing steps from a
    freshly added username element (no marker classes, no badge). -/
inductive ReachableElem : ChatElem → Prop where
  | init (text : String) :
      ReachableElem { classes := [], siblingBadges := 0, hasBadgeDescendant := false, text := text }
  | step (el : ChatElem) (ev : ObserverEvent) :
      ReachableElem el → ReachableElem (applyObserverEvent el ev)

/-- Specification-side reading of last-row-wins: the record built from the
    last row among `rows` (in line order) that is admissible and whose
    lowercased username is `k`; `none` when there is no such row. -/
def lastAdmissibleRecord (h : HeaderIdx) (cnt : Nat) (rows : List String)
    (k : String) : Option UserRecord :=
  rows.foldl
    (fun acc line =>
      match rowEntry h cnt line with
      | some kv => if kv.1 = k then some kv.2 else acc
      | none => acc)
    none

/-- The invariant maintained by the observer steps on an element. -/
def ElemInv (el : ChatElem) : Prop :=
  el.hasBadgeDescendant = false ∧
    ("mcsr-elo-processing" ∈ el.classes → "mcsr-elo-processed" ∈ el.classes →
      1 ≤ el.siblingBadges)

/-!  Helper lemmas. -/

theorem find_map_update_ne (t : UserDataMap) (k k' : String) (v : UserRecord)
    (hne : k' ≠ k) :
    (t.map (fun p => if p.1 = k then (k, v) else p)).find? (fun p => p.1 = k') =
      t.find? (fun p => p.1 = k') := by
  induction t with
  | nil => rfl
  | cons q t ih =>
    by_cases hq : q.1 = k
    · simp only [List.map_cons, List.find?_cons, hq, if_pos rfl]
      have h1 : (decide ((k, v).1 = k')) = false := by
        simp [hne.symm]
      have h2 : (decide (q.1 = k')) = false := by
        simp [hq, hne.symm]
      simp [h1, h2, ih]
    · simp only [List.map_cons, List.find?_cons, if_neg hq]
      by_cases hq' : q.1 = k'
      · simp [hq']
      · simp [hq', ih]

theorem find_map_update_self (t : UserDataMap) (k : String) (v : UserRecord)
    (hany : t.any (fun p => p.1 = k) = true) :
    (t.map (fun p => if p.1 = k then (k, v) else p)).find? (fun p => p.1 = k) =
      some (k, v) := by
  induction t with
  | nil => simp at hany
  | cons q t ih =>
    by_cases hq : q.1 = k
    · simp [List.find?_cons, hq]
    · simp only [List.any_cons, Bool.or_eq_true, decide_eq_true_eq] at hany
      rcases hany with hany | hany
      · exact absurd hany hq
      · simp [List.find?_cons, hq, ih hany]

theorem find_append_new (m : UserDataMap) (k k' : String) (v : UserRecord)
    (hany : m.any (fun p => p.1 = k) = false) :
    (m ++ [(k, v)]).find? (fun p => p.1 = k') =
      if k' = k then some (k, v) else m.find? (fun p => p.1 = k') := by
  induction m with
  | nil =>
    by_cases hk : k' = k
    · simp [List.find?_cons, hk]
    · have hk2 : ¬ (k = k') := fun h => hk h.symm
      simp [List.find?_cons, hk, hk2]
  | cons q m ih =>
    simp only [List.any_cons, Bool.or_eq_false_iff] at hany
    obtain ⟨hq, hany⟩ := hany
    have hqp : ¬ q.1 = k := by simpa using hq
    by_cases hq' : q.1 = k'
    · have : ¬ (k' = k) := fun h => hqp (hq'.trans h)
      simp [List.find?_cons, hq', this]
    · simp [List.find?_cons, hq', ih hany]

theorem mapLookup_mapInsert (m : UserDataMap) (k : String) (v : UserRecord)
    (k' : String) :
    mapLookup (mapInsert m k v) k' = if k' = k then some v else mapLookup m k' := by
  unfold mapInsert mapLookup
  cases hany : m.any (fun p => p.1 = k) with
  | true =>
    rw [if_pos rfl]
    by_cases hk : k' = k
    · subst hk
      rw [find_map_update_self m k' v hany]
      simp
    · rw [find_map_update_ne m k k' v hk, if_neg hk]
  | false =>
    rw [if_neg (by simp), find_append_new m k k' v hany]
    by_cases hk : k' = k
    · simp [hk]
    · simp [hk]

theorem keys_map_update (m : UserDataMap) (k : String) (v : UserRecord) :
    (m.map (fun p => if p.1 = k then (k, v) else p)).map Prod.fst = m.map Prod.fst := by
  induction m with
  | nil => rfl
  | cons q m ih =>
    by_cases hq : q.1 = k
    · simp [hq, ih]
    · simp [hq, ih]

theorem keys_nodup_mapInsert (m : UserDataMap) (k : String) (v : UserRecord)
    (hnd : (m.map Prod.fst).Nodup) : ((mapInsert m k v).map Prod.fst).Nodup := by
  cases hany : m.any (fun p => p.1 = k) with
  | true =>
    unfold mapInsert
    rw [if_pos hany, keys_map_update m k v]
    exact hnd
  | false =>
    unfold mapInsert
    rw [if_neg (by simp [hany])]
    rw [List.map_append, List.nodup_append]
    refine ⟨hnd, List.nodup_singleton k, ?_⟩
    intro a ha hb
    simp at hb
    subst hb
    simp only [List.mem_map] at ha
    obtain ⟨p, hp, hpk⟩ := ha
    have hfalse := List.any_eq_false.mp hany p hp
    simp [hpk] at hfalse

theorem foldl_processRow_keys_nodup (h : HeaderIdx) (cnt : Nat) :
    ∀ (rows : List String) (m : UserDataMap),
      (m.map Prod.fst).Nodup →
      (((rows.foldl (processRow h cnt) m)).map Prod.fst).Nodup := by
  intro rows
  induction rows with
  | nil => intro m hm; exact hm
  | cons r rs ih =>
    intro m hm
    simp only [List.foldl_cons]
    apply ih
    unfold processRow
    cases rowEntry h cnt r with
    | none => exact hm
    | some kv => exact keys_nodup_mapInsert m kv.1 kv.2 hm

theorem foldl_processRow_lookup (h : HeaderIdx) (cnt : Nat) :
    ∀ (rows : List String) (m : UserDataMap) (k : String),
      mapLookup (rows.foldl (processRow h cnt) m) k =
        rows.foldl
          (fun acc line =>
            match rowEntry h cnt line with
            | some kv => if kv.1 = k then some kv.2 else acc
            | none => acc)
          (mapLookup m k) := by
  intro rows
  induction rows with
  | nil => intro m k; rfl
  | cons r rs ih =>
    intro m k
    simp only [List.foldl_cons]
    rw [ih (processRow h cnt m r) k]
    congr 1
    unfold processRow
    cases hre : rowEntry h cnt r with
    | none => rfl
    | some kv =>
      rw [mapLookup_mapInsert m kv.1 kv.2 k]
      by_cases hk : kv.1 = k
      · simp [hk]
      · have : ¬ k = kv.1 := fun hh => hk hh.symm
        simp [hk, this]

theorem jsIndexOf_isSome_iff (l : List String) (a : String) :
    (jsIndexOf l a).isSome = true ↔ a ∈ l := by
  induction l with
  | nil => simp [jsIndexOf]
  | cons x xs ih =>
    by_cases hx : x = a
    · simp [jsIndexOf, hx]
    · have hx2 : ¬ a = x := fun h => hx h.symm
      simp only [jsIndexOf, if_neg hx, List.mem_cons]
      cases hj : jsIndexOf xs a with
      | none => rw [hj] at ih; simp_all
      | some i => rw [hj] at ih; simp_all

theorem jsParseInt_empty : jsParseInt "" = none := rfl

theorem findHeaderIndices_isSome_iff (headerLine : String) :
    (findHeaderIndices headerLine).isSome = true ↔
      ("twitch_name" ∈ lowerHeaderNames headerLine ∧
       "uuid" ∈ lowerHeaderNames headerLine ∧
       "nickname" ∈ lowerHeaderNames headerLine ∧
       "elorate" ∈ lowerHeaderNames headerLine) := by
  have e1 := jsIndexOf_isSome_iff (lowerHeaderNames headerLine) "twitch_name"
  have e2 := jsIndexOf_isSome_iff (lowerHeaderNames headerLine) "uuid"
  have e3 := jsIndexOf_isSome_iff (lowerHeaderNames headerLine) "nickname"
  have e4 := jsIndexOf_isSome_iff (lowerHeaderNames headerLine) "elorate"
  unfold findHeaderIndices
  unfold lowerHeaderNames at *
  rcases h1 : jsIndexOf (((jsSplit headerLine ',').map jsTrim).map jsToLower) "twitch_name" with _ | i1 <;>
    rcases h2 : jsIndexOf (((jsSplit headerLine ',').map jsTrim).map jsToLower) "uuid" with _ | i2 <;>
      rcases h3 : jsIndexOf (((jsSplit headerLine ',').map jsTrim).map jsToLower) "nickname" with _ | i3 <;>
        rcases h4 : jsIndexOf (((jsSplit headerLine ',').map jsTrim).map jsToLower) "elorate" with _ | i4 <;>
          simp_all

theorem loadDataFromStorage_storage (s : BgState) :
    (loadDataFromStorage s).storage = s.storage := by
  unfold loadDataFromStorage
  cases s.storage with
  | none => rfl
  | some stored =>
    by_cases h : 0 < stored.length
    · simp [h]
    · simp [h]

theorem loadDataFromStorage_isFetching (s : BgState) :
    (loadDataFromStorage s).isFetching = s.isFetching := by
  unfold loadDataFromStorage
  cases s.storage with
  | none => rfl
  | some stored =>
    by_cases h : 0 < stored.length
    · simp [h]
    · simp [h]

theorem fetchFallback_storage (s : BgState) :
    (fetchFallback s).storage = s.storage := by
  unfold fetchFallback
  by_cases h : s.isDataLoaded
  · simp [h]
  · simp [h, loadDataFromStorage_storage]

theorem fetchFallback_map_of_loaded (s : BgState) (h : s.isDataLoaded = true) :
    (fetchFallback s).twitchUserDataMap = s.twitchUserDataMap := by
  unfold fetchFallback
  simp [h]

theorem fetchFallback_map_cases (s : BgState) :
    (fetchFallback s).twitchUserDataMap = s.twitchUserDataMap ∨
      (∃ stored, s.storage = some stored ∧ 0 < stored.length ∧
        (fetchFallback s).twitchUserDataMap = stored) := by
  unfold fetchFallback
  by_cases h : s.isDataLoaded
  · simp [h]
  · simp only [h, if_neg]
    unfold loadDataFromStorage
    cases hs : s.storage with
    | none => simp
    | some stored =>
      by_cases hl : 0 < stored.length
      · right; exact ⟨stored, rfl, hl, by simp [hl]⟩
      · simp [hl]

theorem mem_addClass_self (el : ChatElem) (c : String) :
    c ∈ (addClass el c).classes := by
  unfold addClass
  by_cases h : c ∈ el.classes
  · simp [h]
  · simp [h]

theorem mem_addClass_iff (el : ChatElem) (c c' : String) :
    c' ∈ (addClass el c).classes ↔ (c' ∈ el.classes ∨ c' = c) := by
  unfold addClass
  by_cases h : c ∈ el.classes
  · simp only [if_pos h]
    constructor
    · intro hm; exact Or.inl hm
    · rintro (hm | rfl)
      · exact hm
      · exact h
  · simp [h]

theorem addClass_badges (el : ChatElem) (c : String) :
    (addClass el c).siblingBadges = el.siblingBadges := by
  unfold addClass
  by_cases h : c ∈ el.classes <;> simp [h]

theorem addClass_hbd (el : ChatElem) (c : String) :
    (addClass el c).hasBadgeDescendant = el.hasBadgeDescendant := by
  unfold addClass
  by_cases h : c ∈ el.classes <;> simp [h]

theorem mem_removeClass_iff (el : ChatElem) (c c' : String) :
    c' ∈ (removeClass el c).classes ↔ (c' ∈ el.classes ∧ c' ≠ c) := by
  unfold removeClass
  simp [List.mem_filter]

theorem removeClass_badges (el : ChatElem) (c : String) :
    (removeClass el c).siblingBadges = el.siblingBadges := rfl

theorem removeClass_hbd (el : ChatElem) (c : String) :
    (removeClass el c).hasBadgeDescendant = el.hasBadgeDescendant := rfl

theorem addEloDisplay_of_processed (el : ChatElem) (d : LookupResult)
    (hp : "mcsr-elo-processed" ∈ el.classes) : addEloDisplay el d = el := by
  unfold addEloDisplay
  cases d.elo with
  | none => rfl
  | some e => simp [hp]

theorem applyObserverEvent_of_processed (el : ChatElem) (ev : ObserverEvent)
    (hp : "mcsr-elo-processed" ∈ el.classes) :
    "mcsr-elo-processed" ∈ (applyObserverEvent el ev).classes ∧
      (applyObserverEvent el ev).siblingBadges = el.siblingBadges := by
  have hrm : ∀ c : String,
      "mcsr-elo-processed" ∈ (removeClass el c).classes ∧
        (removeClass el c).siblingBadges = el.siblingBadges ∨ c = "mcsr-elo-processed" := by
    intro c
    by_cases hc : c = "mcsr-elo-processed"
    · exact Or.inr hc
    · refine Or.inl ⟨?_, removeClass_badges el c⟩
      rw [mem_removeClass_iff]
      exact ⟨hp, fun h => hc h.symm⟩
  have hrmp : "mcsr-elo-processed" ∈ (removeClass el "mcsr-elo-processing").classes ∧
      (removeClass el "mcsr-elo-processing").siblingBadges = el.siblingBadges := by
    rcases hrm "mcsr-elo-processing" with h | h
    · exact h
    · exact absurd h (by decide)
  cases ev with
  | rescan =>
    unfold applyObserverEvent markProcessing
    simp [hp]
  | completion inp =>
    cases inp with
    | channelError => exact hrmp
    | noResponse => exact hrmp
    | response r =>
      have hred : applyObserverEvent el (ObserverEvent.completion (CompletionInput.response r)) =
          (if r.status ≠ "not_found_in_local_data" ∧ r.status ≠ "data_not_loaded" ∧
              r.status ≠ "invalid_username" then
            (if "mcsr-elo-processed" ∈ (addEloDisplay el r).classes then addEloDisplay el r
             else removeClass (addEloDisplay el r) "mcsr-elo-processing")
          else removeClass el "mcsr-elo-processing") := rfl
      rw [hred]
      by_cases hst : r.status ≠ "not_found_in_local_data" ∧ r.status ≠ "data_not_loaded" ∧
          r.status ≠ "invalid_username"
      · rw [if_pos hst, addEloDisplay_of_processed el r hp, if_pos hp]
        exact ⟨hp, rfl⟩
      · rw [if_neg hst]
        exact hrmp

theorem foldl_events_of_processed (el : ChatElem)
    (hp : "mcsr-elo-processed" ∈ el.classes) :
    ∀ evs : List ObserverEvent,
      (evs.foldl applyObserverEvent el).siblingBadges = el.siblingBadges := by
  intro evs
  induction evs generalizing el with
  | nil => rfl
  | cons ev evs ih =>
    simp only [List.foldl_cons]
    obtain ⟨hp2, hb⟩ := applyObserverEvent_of_processed el ev hp
    rw [ih (applyObserverEvent el ev) hp2, hb]

theorem elemInv_step (el : ChatElem) (ev : ObserverEvent) (hinv : ElemInv el) :
    ElemInv (applyObserverEvent el ev) := by
  obtain ⟨hbd, hflags⟩ := hinv
  have hrm : ∀ c : String, ElemInv (removeClass el c) ∨ c ≠ "mcsr-elo-processing" := by
    intro c
    by_cases hc : c = "mcsr-elo-processing"
    · subst hc
      refine Or.inl ⟨hbd, ?_⟩
      intro h1 _
      rw [mem_removeClass_iff] at h1
      exact absurd rfl h1.2
    · exact Or.inr hc
  have hrmp : ElemInv (removeClass el "mcsr-elo-processing") := by
    rcases hrm "mcsr-elo-processing" with h | h
    · exact h
    · exact absurd rfl h
  cases ev with
  | rescan =>
    unfold applyObserverEvent markProcessing
    by_cases hguard : "mcsr-elo-processed" ∉ el.classes ∧ "mcsr-elo-processing" ∉ el.classes
    · rw [if_pos hguard]
      by_cases htext : jsTrim el.text ≠ ""
      · rw [if_pos htext]
        refine ⟨by rw [addClass_hbd]; exact hbd, ?_⟩
        intro _ h2
        rw [mem_addClass_iff] at h2
        rcases h2 with h2 | h2
        · exact absurd h2 hguard.1
        · exact absurd h2 (by decide)
      · rw [if_neg htext]; exact ⟨hbd, hflags⟩
    · rw [if_neg hguard]; exact ⟨hbd, hflags⟩
  | completion inp =>
    cases inp with
    | channelError => exact hrmp
    | noResponse => exact hrmp
    | response r =>
      have hred : applyObserverEvent el (ObserverEvent.completion (CompletionInput.response r)) =
          (if r.status ≠ "not_found_in_local_data" ∧ r.status ≠ "data_not_loaded" ∧
              r.status ≠ "invalid_username" then
            (if "mcsr-elo-processed" ∈ (addEloDisplay el r).classes then addEloDisplay el r
             else removeClass (addEloDisplay el r) "mcsr-elo-processing")
          else removeClass el "mcsr-elo-processing") := rfl
      rw [hred]
      by_cases hst : r.status ≠ "not_found_in_local_data" ∧ r.status ≠ "data_not_loaded" ∧
          r.status ≠ "invalid_username"
      · rw [if_pos hst]
        by_cases helo : ∃ e, r.elo = some e
        · obtain ⟨e, helo⟩ := helo
          by_cases hpr : "mcsr-elo-processed" ∈ el.classes
          · rw [addEloDisplay_of_processed el r hpr, if_pos hpr]
            exact ⟨hbd, hflags⟩
          · have hadd : addEloDisplay el r =
                { addClass el "mcsr-elo-processed" with
                  siblingBadges := (addClass el "mcsr-elo-processed").siblingBadges + 1 } := by
              unfold addEloDisplay
              rw [helo]
              simp only [if_neg hpr]
              rw [if_neg (by rw [addClass_hbd]; simp [hbd])]
            rw [hadd]
            have hmem : "mcsr-elo-processed" ∈
                ({ addClass el "mcsr-elo-processed" with
                   siblingBadges := (addClass el "mcsr-elo-processed").siblingBadges + 1 } :
                  ChatElem).classes := mem_addClass_self el "mcsr-elo-processed"
            rw [if_pos hmem]
            refine ⟨by rw [addClass_hbd] at *; exact hbd, ?_⟩
            intro _ _
            exact Nat.le_add_left 1 _
        · have helo2 : r.elo = none := by
            cases hcase : r.elo with
            | none => rfl
            | some e => exact absurd ⟨e, hcase⟩ helo
          have hnoop : addEloDisplay el r = el := by
            unfold addEloDisplay; rw [helo2]
          rw [hnoop]
          by_cases hpr : "mcsr-elo-processed" ∈ el.classes
          · rw [if_pos hpr]; exact ⟨hbd, hflags⟩
          · rw [if_neg hpr]; exact hrmp
      · rw [if_neg hst]
        exact hrmp

theorem reachableElem_inv (el : ChatElem) (hr : ReachableElem el) : ElemInv el := by
  induction hr with
  | init text => exact ⟨rfl, by intro h _; simp at h⟩
  | step el ev _ ih => exact elemInv_step el ev ih

/-- Reduction of `getRankInfo` on a present rating to its if-chain. -/
theorem getRankInfo_some_eq (e : Int) :
    getRankInfo (some e) =
      (if 2000 ≤ e then
        { rank := "Netherite", division := none, bgColor := "#602A2A", textColor := "#FFFFFF" }
      else if 1800 ≤ e then
        { rank := "Diamond", division := some 3, bgColor := "#4AEED8", textColor := "#000000" }
      else if 1650 ≤ e then
        { rank := "Diamond", division := some 2, bgColor := "#4AEED8", textColor := "#000000" }
      else if 1500 ≤ e then
        { rank := "Diamond", division := some 1, bgColor := "#4AEED8", textColor := "#000000" }
      else if 1400 ≤ e then
        { rank := "Emerald", division := some 3, bgColor := "#00B837", textColor := "#FFFFFF" }
      else if 1300 ≤ e then
        { rank := "Emerald", division := some 2, bgColor := "#00B837", textColor := "#FFFFFF" }
      else if 1200 ≤ e then
        { rank := "Emerald", division := some 1, bgColor := "#00B837", textColor := "#FFFFFF" }
      else if 1100 ≤ e then
        { rank := "Gold", division := some 3, bgColor := "#F9A602", textColor := "#000000" }
      else if 1000 ≤ e then
        { rank := "Gold", division := some 2, bgColor := "#F9A602", textColor := "#000000" }
      else if 900 ≤ e then
        { rank := "Gold", division := some 1, bgColor := "#F9A602", textColor := "#000000" }
      else if 800 ≤ e then
        { rank := "Iron", division := some 3, bgColor := "#E0E0E0", textColor := "#000000" }
      else if 700 ≤ e then
        { rank := "Iron", division := some 2, bgColor := "#E0E0E0", textColor := "#000000" }
      else if 600 ≤ e then
        { rank := "Iron", division := some 1, bgColor := "#E0E0E0", textColor := "#000000" }
      else if 500 ≤ e then
        { rank := "Coal", division := some 3, bgColor := "#555555", textColor := "#FFFFFF" }
      else if 400 ≤ e then
        { rank := "Coal", division := some 2, bgColor := "#555555", textColor := "#FFFFFF" }
      else
        { rank := "Coal", division := some 1, bgColor := "#555555", textColor := "#FFFFFF" }) :=
  rfl


/-- The rating-field guard of the row loop collapses to `jsParseInt`,
    which is already `none` on the empty string. -/
theorem jsParseInt_guard (x : String) :
    (if x ≠ "" then jsParseInt x else none) = jsParseInt x := by
  by_cases hx : x = ""
  · rw [if_neg (by simp [hx]), hx, jsParseInt_empty]
  · rw [if_pos hx]

/-!  Claim theorems. -/

/-- C3: at most one refresh runs at a time — a `forceCsvUpdate` request
    arriving while `isFetching` is set is answered at once with
    `success: false` and the message "Fetch already in progress.", and a
    `fetchAndStoreCsvData` call in that state returns `false` without
    changing any state. -/
theorem c3_refresh_mutex (s : BgState) (outcome : FetchOutcome)
    (hf : s.isFetching = true) :
    handleForceUpdate s outcome =
      (s, { success := false, message := some "Fetch already in progress." }) ∧
    fetchAndStoreCsvData s outcome = (s, false) := by
  unfold handleForceUpdate fetchAndStoreCsvData
  rw [hf]
  exact ⟨rfl, rfl⟩

/-- Witness for C3 at a concrete in-flight state. -/
theorem c3_witness :
    handleForceUpdate ⟨[], false, true, none⟩ FetchOutcome.transportError =
      (⟨[], false, true, none⟩,
       { success := false, message := some "Fetch already in progress." }) ∧
    fetchAndStoreCsvData ⟨[], false, true, none⟩ FetchOutcome.transportError =
      (⟨[], false, true, none⟩, false) :=
  c3_refresh_mutex ⟨[], false, true, none⟩ FetchOutcome.transportError rfl

/-- C6 (counterexample): with the cache not loaded and an absent username,
    the `getElo` path reports `data_not_loaded` (CacheMiss), not
    `invalid_username` — the `isDataLoaded` check precedes the username
    check, and a storage load is attempted first, so the claimed
    unconditional immediate `InvalidInput` is false. -/
theorem c6_counterexample :
    (handleGetEloMessage ⟨[], false, false, none⟩ none).2.status = "data_not_loaded" ∧
    (handleGetEloMessage ⟨[], false, false, none⟩ none).2.status ≠ "invalid_username" := by
  decide

/-- C6 (amended): when the cache is loaded in memory, a lookup whose
    username is absent or empty after lowercasing returns
    `invalid_username` with null elo/nickname/uuid, leaves the state
    unchanged, and the answer is independent of the contents of the cache
    map and of durable storage (neither is consulted); when the cache is
    not loaded the message path first attempts a storage load (see the
    counterexample). -/
theorem c6_amended_invalid_input (s : BgState) (username : Option String)
    (hload : s.isDataLoaded = true)
    (huser : (username.map jsToLower).getD "" = "") :
    ∀ (m : UserDataMap) (st : Option UserDataMap),
      handleGetEloMessage { s with twitchUserDataMap := m, storage := st } username =
        ({ s with twitchUserDataMap := m, storage := st },
         { elo := none, nickname := none, uuid := none, status := "invalid_username" }) := by
  intro m st
  unfold handleGetEloMessage
  cases username with
  | none => simp [handleEloRequest, hload]
  | some u =>
    simp at huser
    simp [handleEloRequest, hload, huser]

/-- Witness for C6 (amended) at a concrete loaded state and empty username. -/
theorem c6_witness :
    handleGetEloMessage ⟨[("x", ⟨"y", none, none⟩)], true, false, some []⟩ (some "") =
      (⟨[("x", ⟨"y", none, none⟩)], true, false, some []⟩,
       { elo := none, nickname := none, uuid := none, status := "invalid_username" }) :=
  c6_amended_invalid_input ⟨[("bob", ⟨"u1", none, some 100⟩)], true, false, none⟩
    (some "") rfl rfl [("x", ⟨"y", none, none⟩)] (some [])

/-- C7 (counterexample): a rating below the lowest breakpoint is mapped to
    Coal division 1, not to the Unrated tier as claimed. -/
theorem c7_counterexample :
    getRankInfo (some (-1)) =
      { rank := "Coal", division := some 1, bgColor := "#555555", textColor := "#FFFFFF" } ∧
    (getRankInfo (some (-1))).rank ≠ "Unrated" := by
  decide

/-- C7 (amended): `getRankInfo` is a pure function of the rating with the
    fixed breakpoints — 2000 and above is Netherite with no division, 1999
    is Diamond division 3, 0 is Coal division 1, a null rating is Unrated,
    and any rating below the lowest breakpoint (below 0) is Coal division 1
    (the bottom bucket), not Unrated. -/
theorem c7_amended_rank_breakpoints (e : Int) :
    (2000 ≤ e → getRankInfo (some e) =
      { rank := "Netherite", division := none, bgColor := "#602A2A", textColor := "#FFFFFF" }) ∧
    getRankInfo (some 1999) =
      { rank := "Diamond", division := some 3, bgColor := "#4AEED8", textColor := "#000000" } ∧
    getRankInfo (some 0) =
      { rank := "Coal", division := some 1, bgColor := "#555555", textColor := "#FFFFFF" } ∧
    getRankInfo none =
      { rank := "Unrated", division := none, bgColor := "#AAAAAA", textColor := "#000000" } ∧
    (e < 0 → getRankInfo (some e) =
      { rank := "Coal", division := some 1, bgColor := "#555555", textColor := "#FFFFFF" }) := by
  refine ⟨?_, by decide, by decide, rfl, ?_⟩
  · intro hge
    rw [getRankInfo_some_eq, if_pos hge]
  · intro hlt
    rw [getRankInfo_some_eq]
    repeat rw [if_neg (by omega)]

/-- Witness for C7 (amended) at ratings 2500 and -7. -/
theorem c7_witness :
    getRankInfo (some 2500) =
      { rank := "Netherite", division := none, bgColor := "#602A2A", textColor := "#FFFFFF" } ∧
    getRankInfo (some (-7)) =
      { rank := "Coal", division := some 1, bgColor := "#555555", textColor := "#FFFFFF" } :=
  ⟨(c7_amended_rank_breakpoints 2500).1 (by decide),
   (c7_amended_rank_breakpoints (-7)).2.2.2.2 (by decide)⟩

/-- C8: annotation is at-most-once — on an element already carrying the
    `mcsr-elo-processed` marker every further `addEloDisplay` call is a
    no-op (no second badge, element untouched), and consequently no
    sequence of rescans and lookup completions ever changes its badge
    count. -/
theorem c8_annotated_terminal (el : ChatElem)
    (hp : "mcsr-elo-processed" ∈ el.classes) :
    (∀ d : LookupResult, addEloDisplay el d = el) ∧
    ∀ evs : List ObserverEvent,
      (evs.foldl applyObserverEvent el).siblingBadges = el.siblingBadges :=
  ⟨fun d => addEloDisplay_of_processed el d hp, foldl_events_of_processed el hp⟩

/-- Witness for C8 on a concrete annotated element and a hit response. -/
theorem c8_witness :
    addEloDisplay ⟨["mcsr-elo-processed"], 1, false, "Bob"⟩
        { elo := some 1550, nickname := none, uuid := none, status := "storage_hit" } =
      ⟨["mcsr-elo-processed"], 1, false, "Bob"⟩ :=
  (c8_annotated_terminal ⟨["mcsr-elo-processed"], 1, false, "Bob"⟩ (by decide)).1
    { elo := some 1550, nickname := none, uuid := none, status := "storage_hit" }

/-- C9 (counterexample): after a successful lookup completion the badge is
    rendered and `mcsr-elo-processed` is added, but the
    `mcsr-elo-processing` marker is NOT removed (the callback only removes
    it when `processedSuccessfully` is false) — a reachable element carries
    both markers at once, refuting the claimed mutual exclusivity. -/
theorem c9_counterexample :
    "mcsr-elo-processing" ∈
      (applyObserverEvent
        (applyObserverEvent ⟨[], 0, false, "StreamerOne"⟩ ObserverEvent.rescan)
        (ObserverEvent.completion (CompletionInput.response
          { elo := some 1550, nickname := some "Streamer_One", uuid := some "abc-123",
            status := "storage_hit" }))).classes ∧
    "mcsr-elo-processed" ∈
      (applyObserverEvent
        (applyObserverEvent ⟨[], 0, false, "StreamerOne"⟩ ObserverEvent.rescan)
        (ObserverEvent.completion (CompletionInput.response
          { elo := some 1550, nickname := some "Streamer_One", uuid := some "abc-123",
            status := "storage_hit" }))).classes := by
  decide

/-- C9 (amended): the two markers are not mutually exclusive — they
    coexist exactly on annotated elements: in every element state reachable
    by the observer's processing steps, an element carrying both markers is
    one whose badge has been rendered (at least one badge sibling). -/
theorem c9_amended_flags (el : ChatElem) (hr : ReachableElem el)
    (h1 : "mcsr-elo-processing" ∈ el.classes)
    (h2 : "mcsr-elo-processed" ∈ el.classes) :
    1 ≤ el.siblingBadges :=
  (reachableElem_inv el hr).2 h1 h2

/-- Witness for C9 (amended) on the concrete reachable both-marker state. -/
theorem c9_witness :
    1 ≤ (applyObserverEvent
        (applyObserverEvent ⟨[], 0, false, "StreamerOne"⟩ ObserverEvent.rescan)
        (ObserverEvent.completion (CompletionInput.response
          { elo := some 1550, nickname := some "Streamer_One", uuid := some "abc-123",
            status := "storage_hit" }))).siblingBadges :=
  c9_amended_flags _
    (ReachableElem.step _ _ (ReachableElem.step _ _ (ReachableElem.init "StreamerOne")))
    (by decide) (by decide)

/-- A fetch whose CSV parses to nothing or to an empty map takes the
    fallback branch: the only state change is the possible storage reload,
    and the call reports failure. -/
theorem fetch_parse_fail_eq (s : BgState) (csvText : String)
    (hbad : (parseCsvData csvText).getD [] = []) :
    fetchAndStoreCsvData s (FetchOutcome.ok csvText) =
      if s.isFetching = true then (s, false)
      else ({ fetchFallback { s with isFetching := true } with isFetching := false }, false) := by
  have hbody : fetchBody { s with isFetching := true } (FetchOutcome.ok csvText) =
      (fetchFallback { s with isFetching := true }, false) := by
    simp only [fetchBody]
    cases hp : parseCsvData csvText with
    | none => rfl
    | some pm =>
      rw [hp] at hbad
      simp only [Option.getD_some] at hbad
      subst hbad
      rfl
  unfold fetchAndStoreCsvData
  cases hfi : s.isFetching with
  | true => rw [if_pos rfl, if_pos rfl]
  | false =>
    rw [if_neg (by simp), if_neg (by simp)]
    simp only [hbody]

/-- C1 (counterexample): when the cache is not yet marked loaded and
    durable storage holds an old snapshot, a fetch whose text fails to
    parse does change the in-memory map — the fallback
    `if (!isDataLoaded) await loadDataFromStorage()` loads the snapshot
    into memory, so the claimed "in-memory map exactly as it was" is
    false. -/
theorem c1_counterexample :
    (fetchAndStoreCsvData ⟨[], false, false, some [("a", ⟨"u", none, none⟩)]⟩
        (FetchOutcome.ok "x")).1.twitchUserDataMap ≠
      (⟨[], false, false, some [("a", ⟨"u", none, none⟩)]⟩ : BgState).twitchUserDataMap := by
  decide

/-- C1 (amended): on a fetch whose CSV parses to nothing or to an empty
    map, the persisted snapshot is exactly unchanged; the in-memory map is
    exactly unchanged whenever the cache is marked loaded; in general the
    in-memory map is either unchanged or reloaded from the (non-empty)
    persisted snapshot — it is never replaced with the empty new parse —
    and the call reports failure. -/
theorem c1_amended_cache_preserved (s : BgState) (csvText : String)
    (hbad : (parseCsvData csvText).getD [] = []) :
    (fetchAndStoreCsvData s (FetchOutcome.ok csvText)).1.storage = s.storage ∧
    (s.isDataLoaded = true →
      (fetchAndStoreCsvData s (FetchOutcome.ok csvText)).1.twitchUserDataMap =
        s.twitchUserDataMap) ∧
    ((fetchAndStoreCsvData s (FetchOutcome.ok csvText)).1.twitchUserDataMap =
        s.twitchUserDataMap ∨
      ∃ stored, s.storage = some stored ∧ 0 < stored.length ∧
        (fetchAndStoreCsvData s (FetchOutcome.ok csvText)).1.twitchUserDataMap = stored) ∧
    (fetchAndStoreCsvData s (FetchOutcome.ok csvText)).2 = false := by
  rw [fetch_parse_fail_eq s csvText hbad]
  cases hfi : s.isFetching with
  | true =>
    rw [if_pos rfl]
    exact ⟨rfl, fun _ => rfl, Or.inl rfl, rfl⟩
  | false =>
    rw [if_neg (by simp)]
    refine ⟨?_, ?_, ?_, rfl⟩
    · exact fetchFallback_storage { s with isFetching := true }
    · intro hld
      exact fetchFallback_map_of_loaded { s with isFetching := true } hld
    · exact fetchFallback_map_cases { s with isFetching := true }

/-- Witness for C1 (amended) at a loaded state and an unparsable text. -/
theorem c1_witness :
    (fetchAndStoreCsvData ⟨[("bob", ⟨"u1", none, some 100⟩)], true, false,
        some [("bob", ⟨"u1", none, some 100⟩)]⟩ (FetchOutcome.ok "x")).1.storage =
      some [("bob", ⟨"u1", none, some 100⟩)] ∧
    (fetchAndStoreCsvData ⟨[("bob", ⟨"u1", none, some 100⟩)], true, false,
        some [("bob", ⟨"u1", none, some 100⟩)]⟩ (FetchOutcome.ok "x")).1.twitchUserDataMap =
      [("bob", ⟨"u1", none, some 100⟩)] := by
  have h := c1_amended_cache_preserved
    ⟨[("bob", ⟨"u1", none, some 100⟩)], true, false, some [("bob", ⟨"u1", none, some 100⟩)]⟩
    "x" (by decide)
  exact ⟨h.1, h.2.1 rfl⟩

/-- C2: a successful non-empty refresh performs its commit in program
    order — persist to durable storage, then swap the in-memory map, then
    set the loaded flag — and along the four states of that commit
    sequence the in-memory map either still holds the old mapping or the
    new mapping is already persisted: memory is never ahead of durable
    storage. -/
theorem c2_commit_order (s : BgState) (csvText : String) (parsedMap : UserDataMap)
    (hf : s.isFetching = false)
    (hp : parseCsvData csvText = some parsedMap)
    (hn : 0 < parsedMap.length) :
    (fetchAndStoreCsvData s (FetchOutcome.ok csvText)).1 =
      { commitStep3 (commitStep2 (commitStep1 { s with isFetching := true } parsedMap) parsedMap)
          with isFetching := false } ∧
    (fetchAndStoreCsvData s (FetchOutcome.ok csvText)).2 = true ∧
    ∀ st ∈ commitTrace { s with isFetching := true } parsedMap,
      st.twitchUserDataMap = s.twitchUserDataMap ∨ st.storage = some parsedMap := by
  have hmain : fetchAndStoreCsvData s (FetchOutcome.ok csvText) =
      ({ commitStep3 (commitStep2 (commitStep1 { s with isFetching := true } parsedMap)
          parsedMap) with isFetching := false }, true) := by
    have hbody : fetchBody { s with isFetching := true } (FetchOutcome.ok csvText) =
        (commitStep3 (commitStep2 (commitStep1 { s with isFetching := true } parsedMap)
          parsedMap), true) := by
      simp only [fetchBody, hp]
      rw [if_pos hn]
    unfold fetchAndStoreCsvData
    rw [hf, if_neg (by simp)]
    simp only [hbody]
  refine ⟨by rw [hmain], by rw [hmain], ?_⟩
  intro st hst
  simp only [commitTrace, List.mem_cons, List.not_mem_nil, or_false] at hst
  rcases hst with rfl | rfl | rfl | rfl
  · exact Or.inl rfl
  · exact Or.inl rfl
  · exact Or.inr rfl
  · exact Or.inr rfl

/-- Witness for C2 on a concrete one-row CSV from a cold state. -/
theorem c2_witness :
    (fetchAndStoreCsvData ⟨[], false, false, none⟩
        (FetchOutcome.ok "uuid,twitch_name,nickname,eloRate\nu1,Bob,,100")).1 =
      ⟨[("bob", ⟨"u1", none, some 100⟩)], true, false, some [("bob", ⟨"u1", none, some 100⟩)]⟩ ∧
    (fetchAndStoreCsvData ⟨[], false, false, none⟩
        (FetchOutcome.ok "uuid,twitch_name,nickname,eloRate\nu1,Bob,,100")).2 = true := by
  have h := c2_commit_order ⟨[], false, false, none⟩
    "uuid,twitch_name,nickname,eloRate\nu1,Bob,,100" [("bob", ⟨"u1", none, some 100⟩)]
    rfl (by decide) (by decide)
  exact ⟨h.1, h.2.1⟩

/-- C4: for a well-formed data row (field count equal to the header's), a
    record enters the new mapping exactly when the trimmed username and
    identifier fields are both non-empty; the entry is keyed by the
    lowercased username, its `eloRate` is the `parseInt` value of the
    rating field when that parses (and null otherwise, `jsParseInt` being
    `none` exactly on those fields), its nickname is null exactly when the
    nickname field is empty, and no other key of the mapping changes. -/
theorem c4_row_admission (headerLine line : String) (h : HeaderIdx) (cnt : Nat)
    (m : UserDataMap)
    (hh : findHeaderIndices headerLine = some (h, cnt))
    (hlen : (rowValues line).length = cnt) :
    (¬((rowValues line).getD h.twitchNameIndex "" ≠ "" ∧
        (rowValues line).getD h.uuidIndex "" ≠ "") →
      processRow h cnt m line = m) ∧
    (((rowValues line).getD h.twitchNameIndex "" ≠ "" ∧
        (rowValues line).getD h.uuidIndex "" ≠ "") →
      mapLookup (processRow h cnt m line)
          (jsToLower ((rowValues line).getD h.twitchNameIndex "")) =
        some { uuid := (rowValues line).getD h.uuidIndex ""
               nickname := if (rowValues line).getD h.nicknameIndex "" = "" then none
                 else some ((rowValues line).getD h.nicknameIndex "")
               eloRate := jsParseInt ((rowValues line).getD h.eloRateIndex "") } ∧
      ∀ k, k ≠ jsToLower ((rowValues line).getD h.twitchNameIndex "") →
        mapLookup (processRow h cnt m line) k = mapLookup m k) := by
  by_cases hc : (rowValues line).getD h.twitchNameIndex "" ≠ "" ∧
      (rowValues line).getD h.uuidIndex "" ≠ ""
  · have hentry : rowEntry h cnt line =
        some (jsToLower ((rowValues line).getD h.twitchNameIndex ""),
          { uuid := (rowValues line).getD h.uuidIndex ""
            nickname := if (rowValues line).getD h.nicknameIndex "" = "" then none
              else some ((rowValues line).getD h.nicknameIndex "")
            eloRate := jsParseInt ((rowValues line).getD h.eloRateIndex "") }) := by
      unfold rowEntry
      rw [if_pos hlen, if_pos hc, jsParseInt_guard]
    have hproc : processRow h cnt m line =
        mapInsert m (jsToLower ((rowValues line).getD h.twitchNameIndex ""))
          { uuid := (rowValues line).getD h.uuidIndex ""
            nickname := if (rowValues line).getD h.nicknameIndex "" = "" then none
              else some ((rowValues line).getD h.nicknameIndex "")
            eloRate := jsParseInt ((rowValues line).getD h.eloRateIndex "") } := by
      unfold processRow
      rw [hentry]
    refine ⟨fun hcc => absurd hc hcc, fun _ => ⟨?_, ?_⟩⟩
    · rw [hproc, mapLookup_mapInsert, if_pos rfl]
    · intro k hk
      rw [hproc, mapLookup_mapInsert, if_neg hk]
  · have hentry : rowEntry h cnt line = none := by
      unfold rowEntry
      rw [if_pos hlen, if_neg hc]
    refine ⟨fun _ => ?_, fun hcc => absurd hcc hc⟩
    unfold processRow
    rw [hentry]

/-- Witness for C4 on the specification's end-to-end example row. -/
theorem c4_witness :
    mapLookup (processRow ⟨1, 0, 2, 3⟩ 4 [] "abc-123,StreamerOne,Streamer_One,1550")
        "streamerone" =
      some { uuid := "abc-123", nickname := some "Streamer_One", eloRate := some 1550 } := by
  have h := (c4_row_admission "uuid,twitch_name,nickname,eloRate"
    "abc-123,StreamerOne,Streamer_One,1550" ⟨1, 0, 2, 3⟩ 4 []
    (by decide) (by decide)).2 ⟨by decide, by decide⟩
  exact h.1

/-- C5: header matching is case-insensitive — any header whose trimmed,
    lowercased field names contain the four required column names is
    accepted, whatever letter case it uses; and for every CSV text whose
    header lacks one of the four names under that comparison the parse
    fails (`null`, the SchemaError path), the persisted snapshot is
    unchanged by the fetch, and so is the in-memory map of a loaded
    cache. -/
theorem c5_header_case_insensitive :
    (∀ headerLine : String,
      ("twitch_name" ∈ lowerHeaderNames headerLine ∧
       "uuid" ∈ lowerHeaderNames headerLine ∧
       "nickname" ∈ lowerHeaderNames headerLine ∧
       "elorate" ∈ lowerHeaderNames headerLine) →
      (findHeaderIndices headerLine).isSome = true) ∧
    (∀ (csvText headerLine : String) (dataLines : List String),
      jsSplit (jsTrim csvText) '\n' = headerLine :: dataLines →
      ¬("twitch_name" ∈ lowerHeaderNames headerLine ∧
        "uuid" ∈ lowerHeaderNames headerLine ∧
        "nickname" ∈ lowerHeaderNames headerLine ∧
        "elorate" ∈ lowerHeaderNames headerLine) →
      parseCsvData csvText = none ∧
      ∀ s : BgState,
        (fetchAndStoreCsvData s (FetchOutcome.ok csvText)).1.storage = s.storage ∧
        (s.isDataLoaded = true →
          (fetchAndStoreCsvData s (FetchOutcome.ok csvText)).1.twitchUserDataMap =
            s.twitchUserDataMap)) := by
  constructor
  · intro headerLine hmem
    exact (findHeaderIndices_isSome_iff headerLine).mpr hmem
  · intro csvText headerLine dataLines hsplit hmiss
    have hnone : findHeaderIndices headerLine = none := by
      cases hfh : findHeaderIndices headerLine with
      | none => rfl
      | some v =>
        exact absurd ((findHeaderIndices_isSome_iff headerLine).mp (by rw [hfh]; rfl)) hmiss
    have hparse : parseCsvData csvText = none := by
      unfold parseCsvData
      rw [hsplit]
      by_cases hlen : (headerLine :: dataLines).length < 2
      · rw [if_pos hlen]
      · rw [if_neg hlen]
        simp only [hnone]
    refine ⟨hparse, ?_⟩
    intro s
    rw [fetch_parse_fail_eq s csvText (by rw [hparse]; rfl)]
    cases hfi : s.isFetching with
    | true =>
      rw [if_pos rfl]
      exact ⟨rfl, fun _ => rfl⟩
    | false =>
      rw [if_neg (by simp)]
      exact ⟨fetchFallback_storage { s with isFetching := true },
        fun hld => fetchFallback_map_of_loaded { s with isFetching := true } hld⟩

/-- Witness for C5: a header respelled in mixed case is accepted; a header
    with no nickname column makes the parse fail. -/
theorem c5_witness :
    (findHeaderIndices "UUID,Twitch_Name,NICKNAME,eloRate").isSome = true ∧
    parseCsvData "uuid,twitch_name,eloRate\nu1,Bob,100" = none :=
  ⟨c5_header_case_insensitive.1 "UUID,Twitch_Name,NICKNAME,eloRate" (by decide),
   (c5_header_case_insensitive.2 "uuid,twitch_name,eloRate\nu1,Bob,100"
     "uuid,twitch_name,eloRate" ["u1,Bob,100"] (by decide) (by decide)).1⟩

/-- C10: duplicate keys resolve last-row-wins — the parsed map's keys are
    pairwise distinct (exactly one entry per key), and the record found
    under any key is the one built from the last admissible data row (in
    line order) whose lowercased username is that key. -/
theorem c10_last_row_wins (csvText headerLine : String) (dataLines : List String)
    (h : HeaderIdx) (cnt : Nat) (m : UserDataMap)
    (hsplit : jsSplit (jsTrim csvText) '\n' = headerLine :: dataLines)
    (hh : findHeaderIndices headerLine = some (h, cnt))
    (hparse : parseCsvData csvText = some m) :
    (m.map Prod.fst).Nodup ∧
    ∀ k, mapLookup m k = lastAdmissibleRecord h cnt dataLines k := by
  have hm : m = dataLines.foldl (processRow h cnt) [] := by
    unfold parseCsvData at hparse
    rw [hsplit] at hparse
    by_cases hlen : (headerLine :: dataLines).length < 2
    · rw [if_pos hlen] at hparse
      exact absurd hparse (by simp)
    · rw [if_neg hlen] at hparse
      simp only [hh, Option.some_inj] at hparse
      exact hparse.symm
  subst hm
  refine ⟨foldl_processRow_keys_nodup h cnt dataLines [] (by simp), ?_⟩
  intro k
  rw [foldl_processRow_lookup h cnt dataLines [] k]
  rfl

/-- Witness for C10 on a CSV whose two rows collide on the key "bob". -/
theorem c10_witness :
    (([("bob", ⟨"u2", none, none⟩)] : UserDataMap).map Prod.fst).Nodup ∧
    mapLookup [("bob", ⟨"u2", none, none⟩)] "bob" =
      lastAdmissibleRecord ⟨1, 0, 2, 3⟩ 4 ["u1,Bob,B1,100", "u2,BOB,,abc"] "bob" ∧
    lastAdmissibleRecord ⟨1, 0, 2, 3⟩ 4 ["u1,Bob,B1,100", "u2,BOB,,abc"] "bob" =
      some ⟨"u2", none, none⟩ := by
  have h := c10_last_row_wins "uuid,twitch_name,nickname,eloRate\nu1,Bob,B1,100\nu2,BOB,,abc"
    "uuid,twitch_name,nickname,eloRate" ["u1,Bob,B1,100", "u2,BOB,,abc"] ⟨1, 0, 2, 3⟩ 4
    [("bob", ⟨"u2", none, none⟩)] (by decide) (by decide) (by decide)
  exact ⟨h.1, h.2 "bob", by decide⟩
